import Mathlib

/-!
Shallow embedding of the riker-cqrs virtual-entity supervisor
(`src/lib.rs`).  The supervisor (`EntityActor`) owns an instance
registry mapping entity identifiers to live worker handles with a
last-used timestamp, routes commands (`handle_cmd`), passivates idle
workers (`sleep_instances`) and drives the sweeps with a
self-rescheduling 60-second tick (`schedule_tick` / `pre_start` /
`other_receive`).

Modelling choices, each tied to the source:
* The runtime's `ActorRef` worker handle is modelled as a `Nat`.
* `SystemTime` is modelled as `Int` (seconds); `Duration` as `Nat`.
  `SystemTime::now() - self.sleep_after` becomes integer subtraction;
  its panic on underflow of the `i64`-seconds representation
  (`Sub<Duration> for SystemTime` is a checked subtraction with an
  `expect`) is modelled by `sleep_instances_checked`, while
  `sleep_instances` is the registry partition in the representable
  range.
* The `HashMap<String, EntityInstance>` registry is modelled as an
  association list `List (String × EntityInstance)`; `contains_key` /
  `get_mut` become `List.lookup`, `insert` of an absent key becomes an
  append, `drain().partition(..)` plus re-insertion becomes two
  `List.filter`s.
* Runtime side effects (`tell`, `ctx.actor_of`, `ctx.stop`,
  `ctx.schedule_once`) are recorded in a returned effect list; the
  result of `ctx.actor_of` is an input (`createRes : Option Nat`),
  `none` modelling a failed creation, so that the `.unwrap()` on the
  cache-miss path is visible as an `Option.none` result (a panic).
* The factory `EntityActorProps::props` produces a `BoxActorProd`
  build specification, modelled as a `String` produced by a function
  `String → String`.
-/

namespace RikerCqrs

/-- Embeds `struct EntityInstance<Msg> { last_used: SystemTime, actor: ActorRef<Msg> }`:
the worker handle is a `Nat`, the timestamp an `Int` (seconds). -/
structure EntityInstance where
  last_used : Int
  actor : Nat
  deriving DecidableEq, Repr

/-- Runtime side effects issued by the supervisor, in order.
`tell h m s` embeds `h.tell(m, s)`; `create spec name h` embeds
`ctx.actor_of(spec, name)` returning handle `h`; `stop h` embeds
`ctx.stop(h)`; `scheduleTick d` embeds
`ctx.schedule_once(Duration::from_secs(d), ctx.myself(), None, ActorMsg::Tick)`. -/
inductive Effect (Msg : Type) where
  | tell (handle : Nat) (msg : Msg) (sender : Option Nat)
  | create (spec : String) (name : String) (handle : Nat)
  | stop (handle : Nat)
  | scheduleTick (delaySecs : Nat)
  deriving DecidableEq, Repr

/-- The messages the supervisor's `other_receive` dispatches on:
`ActorMsg::CQ(CQMsg::Cmd(id, cmd))`, `ActorMsg::Tick`, and the
catch-all `_ => {}` arm. -/
inductive ActorMsg (Msg : Type) where
  | cq (id : String) (cmd : Msg)
  | tick
  | other
  deriving DecidableEq, Repr

/-- Embeds `struct EntityActor<Pro, Msg>`: the supervisor's name, the
worker factory (`props`), the instance registry and the passivation
threshold `sleep_after` in seconds (`Duration::from_secs`). -/
structure EntityActor where
  name : String
  props : String → String
  instances : List (String × EntityInstance)
  sleep_after : Nat

/-- The in-place `entity.last_used = SystemTime::now()` on the entry
`get_mut(&id)` returns: every pair whose key equals `id` gets its
timestamp replaced by `now` (its worker handle kept). -/
def touch (id : String) (now : Int) (l : List (String × EntityInstance)) :
    List (String × EntityInstance) :=
  l.map fun p => if id == p.1 then (p.1, { last_used := now, actor := p.2.actor }) else p

/-- Embeds `EntityActor::handle_cmd`.  On a registry hit the command is
forwarded to the existing worker and its `last_used` is set to `now`.
On a miss, `ctx.actor_of(self.props.props(id), id)` is consulted:
`createRes = some h` is a successful creation of handle `h`, and
`createRes = none` a failed one, on which the source's `.unwrap()`
panics — modelled by returning `none`.  On success the command goes to
the new worker and a fresh instance is inserted with
`last_used = now`. -/
def handle_cmd {Msg : Type} (st : EntityActor) (now : Int) (id : String) (cmd : Msg)
    (sender : Option Nat) (createRes : Option Nat) :
    Option (EntityActor × List (Effect Msg)) :=
  match st.instances.lookup id with
  | some inst =>
      some ({ st with instances := touch id now st.instances },
            [Effect.tell inst.actor cmd sender])
  | none =>
      match createRes with
      | none => none
      | some h =>
          some ({ st with instances := st.instances ++ [(id, { last_used := now, actor := h })] },
                [Effect.create (st.props id) id h, Effect.tell h cmd sender])

/-- Embeds the registry partition of `EntityActor::sleep_instances`:
`threshhold` is `SystemTime::now() - self.sleep_after` (as plain
integer subtraction — see `sleep_instances_checked` for the
subtraction's panic on underflow); the registry is drained and
partitioned on `threshhold > instance.last_used`; each instance of the
idle part has `ctx.stop` called on its worker handle (the returned
`List Nat`, in registry order); the rest is re-inserted. -/
def sleep_instances (st : EntityActor) (now : Int) : EntityActor × List Nat :=
  let threshhold : Int := now - (st.sleep_after : Int)
  let stop := st.instances.filter fun p => decide (p.2.last_used < threshhold)
  let keep := st.instances.filter fun p => !decide (p.2.last_used < threshhold)
  ({ st with instances := keep }, stop.map fun p => p.2.actor)

/-- Embeds `EntityActor::sleep_instances` including the
`SystemTime::now() - self.sleep_after` subtraction's own failure mode:
`Sub<Duration> for SystemTime` is
`checked_sub(..).expect("overflow when subtracting duration from instant")`,
so it panics when the result underflows the timestamp representation
(`i64` seconds on Unix, i.e. a result below `-(2 ^ 63)`).  `none`
models that panic; in the representable range the sweep proceeds as
`sleep_instances`, which models only the registry partition. -/
def sleep_instances_checked (st : EntityActor) (now : Int) :
    Option (EntityActor × List Nat) :=
  if now - (st.sleep_after : Int) < -(2 ^ 63 : Int) then none
  else some (sleep_instances st now)

/-- Embeds `EntityActor::schedule_tick`: one one-shot self message
after a constant 60 seconds carrying `ActorMsg::Tick`. -/
def schedule_tick (Msg : Type) : List (Effect Msg) :=
  [Effect.scheduleTick 60]

/-- Embeds `Actor::pre_start`: the supervisor schedules the first tick
on startup. -/
def pre_start (Msg : Type) : List (Effect Msg) :=
  schedule_tick Msg

/-- Embeds `Actor::other_receive`: a `CQMsg::Cmd` is routed through
`handle_cmd`; a `Tick` runs `sleep_instances` (emitting one `stop`
effect per evicted worker) and then `schedule_tick`; everything else is
ignored. -/
def other_receive {Msg : Type} (st : EntityActor) (now : Int) (msg : ActorMsg Msg)
    (sender : Option Nat) (createRes : Option Nat) :
    Option (EntityActor × List (Effect Msg)) :=
  match msg with
  | ActorMsg.cq id cmd => handle_cmd st now id cmd sender createRes
  | ActorMsg.tick =>
      let res := sleep_instances st now
      some (res.1, res.2.map Effect.stop ++ schedule_tick Msg)
  | ActorMsg.other => some (st, [])

/-- The external configuration source (the `config::Config` of
`sys.config()`); `get_int key = none` models a missing key or a value
that is not an integer (`get_int` returning `Err`). -/
structure Config where
  get_int : String → Option Int

/-- Embeds `pub struct EntityActorConfig { sleep_after_secs: u64 }`. -/
structure EntityActorConfig where
  sleep_after_secs : Nat
  deriving DecidableEq, Repr

/-- Embeds `impl From<&Config> for EntityActorConfig`:
`config.get_int("cqrs.sleep_after_secs").unwrap() as u64`.  The
`.unwrap()` panic on a missing or invalid key is modelled by `none`;
`as u64` on the returned `i64` wraps modulo `2 ^ 64`. -/
def EntityActorConfig.fromConfig (c : Config) : Option EntityActorConfig :=
  (c.get_int "cqrs.sleep_after_secs").map fun n =>
    { sleep_after_secs := (n % (2 : Int) ^ 64).toNat }

/-- Embeds `Entity::new`.  The source computes
`conf.unwrap_or(EntityActorConfig::from(&sys.config()))`: `unwrap_or`
evaluates its argument eagerly, so the configuration source is read
(and its `.unwrap()` may panic, modelled by `none`) before `conf` is
consulted, even when `conf` is `some`.  The runtime's `actor_of` for
the supervisor itself is modelled as succeeding; the result is the
fresh supervisor state with an empty registry. -/
def Entity.new (c : Config) (instance_fact : String → String) (name : String)
    (conf : Option EntityActorConfig) : Option EntityActor :=
  match EntityActorConfig.fromConfig c with
  | none => none
  | some fromSys =>
      let cfg := conf.getD fromSys
      some { name := name, props := instance_fact, instances := [],
             sleep_after := cfg.sleep_after_secs }

/-- A concrete worker factory used by witnesses: the build
specification for an identifier is the identifier itself (as the test
suite's `BankAccountActorFact` builds its specification from the id
alone). -/
def idFact : String → String := fun s => s

/-- A supervisor with an empty registry, used by concrete witnesses. -/
def stEmpty : EntityActor :=
  { name := "acc", props := idFact, instances := [], sleep_after := 60 }

/-- A supervisor with one active instance `"a" ↦ {last_used 0, actor 7}`,
used by concrete witnesses. -/
def stHit : EntityActor :=
  { name := "acc", props := idFact,
    instances := [("a", { last_used := 0, actor := 7 })], sleep_after := 60 }

/-- A supervisor with two instances, one idle (`"a"`, last used 0) and
one fresh (`"b"`, last used 100), used by concrete witnesses. -/
def stTwo : EntityActor :=
  { name := "acc", props := idFact,
    instances := [("a", { last_used := 0, actor := 1 }),
                  ("b", { last_used := 100, actor := 2 })],
    sleep_after := 60 }

/-- A supervisor whose passivation window is `u64::MAX` seconds — the
value `EntityActorConfig::from` produces from a configured `-1` via
the `as u64` wrap — used by the C8 counterexample. -/
def stOverflow : EntityActor :=
  { name := "acc", props := idFact, instances := [], sleep_after := 2 ^ 64 - 1 }

/-- The supervisor states reachable from startup (empty registry) by
any sequence of successful routed commands and sweeps. -/
inductive Reachable (Msg : Type) : EntityActor → Prop where
  | start (name : String) (props : String → String) (sleep_after : Nat) :
      Reachable Msg { name := name, props := props, instances := [], sleep_after := sleep_after }
  | route {st st' : EntityActor} {effs : List (Effect Msg)}
      (now : Int) (id : String) (cmd : Msg) (sender createRes : Option Nat)
      (hst : Reachable Msg st)
      (hstep : handle_cmd st now id cmd sender createRes = some (st', effs)) :
      Reachable Msg st'
  | sweep {st : EntityActor} (now : Int) (hst : Reachable Msg st) :
      Reachable Msg (sleep_instances st now).1

/-! Helper lemmas about the registry operations. -/

theorem lookup_eq_none_mem {β : Type} (id : String) (l : List (String × β))
    (h : l.lookup id = none) : ∀ p ∈ l, p.1 ≠ id := by
  induction l with
  | nil => intro p hp; cases hp
  | cons hd tl ih =>
      intro p hp
      rw [List.lookup] at h
      cases hbeq : (id == hd.1) with
      | true => simp only [hbeq] at h; cases h
      | false =>
          simp only [hbeq] at h
          cases hp with
          | head =>
              intro hcontra
              rw [hcontra] at hbeq
              simp at hbeq
          | tail _ htl => exact ih h p htl

theorem touch_keys (id : String) (now : Int) (l : List (String × EntityInstance)) :
    (touch id now l).map Prod.fst = l.map Prod.fst := by
  rw [touch, List.map_map]
  apply List.map_congr_left
  intro p _
  by_cases hc : id = p.1 <;> simp [hc]

theorem lookup_touch (id : String) (now : Int) (l : List (String × EntityInstance))
    (inst : EntityInstance) (h : l.lookup id = some inst) :
    (touch id now l).lookup id = some { last_used := now, actor := inst.actor } := by
  induction l with
  | nil => cases h
  | cons hd tl ih =>
      rw [List.lookup] at h
      cases hbeq : (id == hd.1) with
      | true =>
          simp only [hbeq] at h
          injection h with h
          subst h
          rw [touch, List.map_cons, if_pos hbeq, List.lookup]
          simp [hbeq]
      | false =>
          simp only [hbeq] at h
          have htl := ih h
          simp only [touch, List.map_cons] at htl ⊢
          simp only [hbeq, Bool.false_eq_true, if_false]
          rw [List.lookup]
          simp only [hbeq]
          exact htl

theorem touch_mem_of_ne (id : String) (now : Int) (l : List (String × EntityInstance))
    (p : String × EntityInstance) (hp : p ∈ l) (hne : p.1 ≠ id) :
    p ∈ touch id now l := by
  have hbeq : (id == p.1) = false := by
    simp only [beq_eq_false_iff_ne]
    exact fun hcontra => hne hcontra.symm
  have hfix : (fun q : String × EntityInstance =>
      if id == q.1 then (q.1, { last_used := now, actor := q.2.actor }) else q) p = p := by
    simp [hbeq]
  rw [touch, ← hfix]
  exact List.mem_map_of_mem _ hp

theorem length_filter_split {α : Type} (l : List α) (p : α → Bool) :
    (l.filter p).length + (l.filter fun a => !p a).length = l.length := by
  induction l with
  | nil => rfl
  | cons a t ih =>
      cases h : p a <;> simp [List.filter_cons, h] <;> omega

theorem filter_filter_same {α : Type} (l : List α) (p : α → Bool) :
    (l.filter p).filter p = l.filter p := by
  apply List.filter_eq_self.mpr
  intro a ha
  exact (List.mem_filter.mp ha).2

theorem filter_disjoint_after_filter_not {α : Type} (l : List α) (p : α → Bool) :
    (l.filter fun a => !p a).filter p = [] := by
  rw [List.filter_eq_nil_iff]
  intro a ha
  have h := (List.mem_filter.mp ha).2
  simp only [Bool.not_eq_true'] at h
  simp [h]

/-- Recognises the `schedule_once(.., ActorMsg::Tick)` effect. -/
def isTickSchedule {Msg : Type} : Effect Msg → Bool
  | Effect.scheduleTick _ => true
  | _ => false

/-! Theorems settling the claims. -/

/-- Claim C1: for every reachable supervisor state, the instance
registry contains at most one live worker handle per entity identifier
— the registry's key list has no duplicates — and this is preserved by
every `route` (hit or miss) and `sweep` step starting from the empty
registry. -/
theorem at_most_one_instance_per_id (Msg : Type) (st : EntityActor)
    (h : Reachable Msg st) : (st.instances.map Prod.fst).Nodup := by
  induction h with
  | start nm pr sl => simp
  | @route st0 st' effs now id cmd sender createRes hst hstep ih =>
      cases hlk : List.lookup id st0.instances with
      | some inst =>
          simp only [handle_cmd, hlk, Option.some.injEq, Prod.mk.injEq] at hstep
          obtain ⟨hst', -⟩ := hstep
          subst hst'
          simpa only [touch_keys] using ih
      | none =>
          simp only [handle_cmd, hlk] at hstep
          cases createRes with
          | none => cases hstep
          | some hdl =>
              simp only [Option.some.injEq, Prod.mk.injEq] at hstep
              obtain ⟨hst', -⟩ := hstep
              subst hst'
              simp only [List.map_append, List.map_cons, List.map_nil]
              refine List.Nodup.append ih (List.nodup_singleton id) ?_
              intro a ha hb
              simp only [List.mem_singleton] at hb
              obtain ⟨p, hp, hpid⟩ := List.mem_map.mp ha
              exact lookup_eq_none_mem _ st0.instances hlk p hp (hpid.trans hb)
  | @sweep st0 now hst ih =>
      have hsub : List.Sublist ((sleep_instances st0 now).1.instances) st0.instances := by
        simp only [sleep_instances]
        exact List.filter_sublist _
      exact List.Nodup.sublist (hsub.map Prod.fst) ih

/-- Witness for C1: a concrete reachable state (one routed command from
startup) whose registry keys are duplicate-free. -/
theorem at_most_one_instance_per_id_witness :
    ((({ name := "acc", props := idFact,
          instances := [("a", { last_used := 0, actor := 1 })],
          sleep_after := 60 } : EntityActor).instances.map Prod.fst)).Nodup :=
  at_most_one_instance_per_id Nat _
    (Reachable.route 0 "a" (0 : Nat) none (some 1)
      (Reachable.start "acc" idFact 60) rfl)

/-- Claim C2: when `entity_id` already has a live instance, routing
forwards the payload to that existing worker handle (the sole emitted
effect is one `tell` to it, so no worker is created), sets the entry's
`last_used` to the current time while keeping its handle, leaves the
registry's key list unchanged, and leaves every entry for a different
identifier untouched. -/
theorem route_hit_reuses_worker (Msg : Type) (st : EntityActor) (now : Int)
    (id : String) (cmd : Msg) (sender : Option Nat) (createRes : Option Nat)
    (inst : EntityInstance) (h : st.instances.lookup id = some inst) :
    ∃ st' : EntityActor,
      handle_cmd st now id cmd sender createRes
          = some (st', [Effect.tell inst.actor cmd sender]) ∧
      st'.instances.map Prod.fst = st.instances.map Prod.fst ∧
      st'.instances.lookup id = some { last_used := now, actor := inst.actor } ∧
      ∀ p ∈ st.instances, p.1 ≠ id → p ∈ st'.instances := by
  refine ⟨{ st with instances := touch id now st.instances }, ?_, ?_, ?_, ?_⟩
  · simp only [handle_cmd, h]
  · exact touch_keys id now st.instances
  · exact lookup_touch id now st.instances inst h
  · intro p hp hne
    exact touch_mem_of_ne id now st.instances p hp hne

/-- Witness for C2: routing to the already-active identifier of a
one-entry registry reuses worker handle 7 and refreshes its
timestamp. -/
theorem route_hit_reuses_worker_witness :
    ∃ st' : EntityActor,
      handle_cmd stHit 5 "a" (3 : Nat) none none
          = some (st', [Effect.tell 7 3 none]) ∧
      st'.instances.map Prod.fst = stHit.instances.map Prod.fst ∧
      st'.instances.lookup "a" = some { last_used := 5, actor := 7 } ∧
      ∀ p ∈ stHit.instances, p.1 ≠ "a" → p ∈ st'.instances :=
  route_hit_reuses_worker Nat stHit 5 "a" 3 none none { last_used := 0, actor := 7 } rfl

/-- Claim C3: when `entity_id` has no live instance (first activation
or after passivation — the only hypothesis is that the identifier is
absent), routing asks the factory for a build specification for that
identifier, creates a worker from it, forwards the payload to the new
worker, and appends a fresh instance with `last_used = now`. -/
theorem route_miss_activates (Msg : Type) (st : EntityActor) (now : Int)
    (id : String) (cmd : Msg) (sender : Option Nat) (hdl : Nat)
    (h : st.instances.lookup id = none) :
    handle_cmd st now id cmd sender (some hdl)
        = some ({ st with instances :=
                    st.instances ++ [(id, { last_used := now, actor := hdl })] },
                [Effect.create (st.props id) id hdl, Effect.tell hdl cmd sender]) := by
  simp only [handle_cmd, h]

/-- Witness for C3: routing to an identifier absent from the registry
creates worker handle 9 from the factory's specification, delivers the
payload to it and registers it with the call time. -/
theorem route_miss_activates_witness :
    handle_cmd stEmpty 5 "b" (3 : Nat) none (some 9)
        = some ({ stEmpty with
                  instances := [("b", { last_used := 5, actor := 9 })] },
                [Effect.create (stEmpty.props "b") "b" 9, Effect.tell 9 3 none]) :=
  route_miss_activates Nat stEmpty 5 "b" 3 none 9 rfl

/-- Claim C9: on the cache-miss path the runtime's worker-creation
result is unwrapped: a failed creation makes the handler panic
(`none`), returning no error value and leaving no resulting state (so
no registry entry is inserted), while the branch is harmless whenever
creation succeeds. -/
theorem route_miss_unwraps_creation (Msg : Type) (st : EntityActor) (now : Int)
    (id : String) (cmd : Msg) (sender : Option Nat)
    (h : st.instances.lookup id = none) :
    handle_cmd st now id cmd sender none = none ∧
    ∀ hdl : Nat, ∃ st' : EntityActor, ∃ effs : List (Effect Msg),
      handle_cmd st now id cmd sender (some hdl) = some (st', effs) := by
  constructor
  · simp only [handle_cmd, h]
  · intro hdl
    exact ⟨{ st with instances := st.instances ++ [(id, { last_used := now, actor := hdl })] },
           [Effect.create (st.props id) id hdl, Effect.tell hdl cmd sender],
           by simp only [handle_cmd, h]⟩

/-- Witness for C9: with an empty registry, a failed creation for "x"
panics the handler, while a successful creation with handle 9
succeeds. -/
theorem route_miss_unwraps_creation_witness :
    handle_cmd stEmpty 0 "x" (1 : Nat) none none = none ∧
    ∃ st' : EntityActor, ∃ effs : List (Effect Nat),
      handle_cmd stEmpty 0 "x" (1 : Nat) none (some 9) = some (st', effs) :=
  ⟨(route_miss_unwraps_creation Nat stEmpty 0 "x" 1 none rfl).1,
   (route_miss_unwraps_creation Nat stEmpty 0 "x" 1 none rfl).2 9⟩

/-- Claim C4: a sweep at time `now` with threshold `sleep_after`
partitions the registry at `cutoff = now - sleep_after`: every entry
with `last_used < cutoff` is removed and its worker handle receives a
stop instruction; every entry with `cutoff ≤ last_used` (boundary
included) stays, as the very same pair (handle and timestamp
unchanged); nothing new appears; and the number of stop instructions
equals the number of evicted entries — one each, in registry order. -/
theorem sweep_partitions (st : EntityActor) (now : Int) :
    (∀ p ∈ st.instances, p.2.last_used < now - (st.sleep_after : Int) →
        p ∉ (sleep_instances st now).1.instances ∧
        p.2.actor ∈ (sleep_instances st now).2) ∧
    (∀ p ∈ st.instances, now - (st.sleep_after : Int) ≤ p.2.last_used →
        p ∈ (sleep_instances st now).1.instances) ∧
    (∀ p ∈ (sleep_instances st now).1.instances, p ∈ st.instances) ∧
    (sleep_instances st now).2.length + (sleep_instances st now).1.instances.length
        = st.instances.length ∧
    (sleep_instances st now).2
        = (st.instances.filter fun p =>
            decide (p.2.last_used < now - (st.sleep_after : Int))).map
          fun p => p.2.actor := by
  refine ⟨?_, ?_, ?_, ?_, rfl⟩
  · intro p hp hlt
    constructor
    · intro hmem
      simp only [sleep_instances, List.mem_filter, Bool.not_eq_true',
        decide_eq_false_iff_not, not_lt] at hmem
      omega
    · simp only [sleep_instances]
      exact List.mem_map_of_mem _ (List.mem_filter.mpr ⟨hp, by simpa using hlt⟩)
  · intro p hp hle
    simp only [sleep_instances, List.mem_filter, Bool.not_eq_true',
      decide_eq_false_iff_not, not_lt]
    exact ⟨hp, hle⟩
  · intro p hp
    simp only [sleep_instances, List.mem_filter] at hp
    exact hp.1
  · simpa only [sleep_instances, List.length_map] using
      length_filter_split st.instances
        fun p => decide (p.2.last_used < now - (st.sleep_after : Int))

/-- Witness for C4: sweeping the two-entry registry at time 100 with
window 60 (cutoff 40) evicts the idle entry `"a"` (stopping its worker
1) and keeps the fresh entry `"b"` untouched. -/
theorem sweep_partitions_witness :
    ("a", { last_used := 0, actor := 1 }) ∉ (sleep_instances stTwo 100).1.instances ∧
    (1 : Nat) ∈ (sleep_instances stTwo 100).2 ∧
    ("b", { last_used := 100, actor := 2 }) ∈ (sleep_instances stTwo 100).1.instances :=
  ⟨((sweep_partitions stTwo 100).1 ("a", { last_used := 0, actor := 1 })
      (by decide) (by decide)).1,
   ((sweep_partitions stTwo 100).1 ("a", { last_used := 0, actor := 1 })
      (by decide) (by decide)).2,
   (sweep_partitions stTwo 100).2.1 ("b", { last_used := 100, actor := 2 })
      (by decide) (by decide)⟩

/-- Claim C6: sweeping twice at the same time with no routed command
in between evicts only once — the second sweep removes no entry, stops
no worker, and returns the registry exactly as the first sweep left
it. -/
theorem sweep_idempotent (st : EntityActor) (now : Int) :
    sleep_instances (sleep_instances st now).1 now = ((sleep_instances st now).1, []) := by
  simp only [sleep_instances]
  rw [filter_filter_same, filter_disjoint_after_filter_not]
  simp

/-- Counterexample for C8: the claim that a sweep never errors for
every configured passivation threshold is false.  A configured value
of `-1` passes `get_int` — so it is not startup-fatal — and the
`as u64` wrap turns it into a window of `u64::MAX` seconds; the
sweep's `SystemTime::now() - self.sleep_after` subtraction then
underflows the timestamp representation and panics
(`expect("overflow when subtracting duration from instant")`),
here at time 0 with an empty registry. -/
theorem sweep_overflow_counterexample :
    EntityActorConfig.fromConfig { get_int := fun _ => some (-1) }
        = some { sleep_after_secs := 2 ^ 64 - 1 } ∧
    sleep_instances_checked stOverflow 0 = none := by
  constructor
  · decide
  · rfl

/-- Claim C8 (amended): a sweep never errors provided the cutoff
subtraction stays in the representable timestamp range
(`-(2 ^ 63) ≤ now - sleep_after`): the `SystemTime - Duration` step
succeeds and the sweep is the pure registry partition, whose surviving
registry is a sublist of the input registry, whose stop instructions
account exactly for the removed entries, and which in the worst case —
no entry idle past the cutoff — removes zero entries and issues zero
stop instructions, leaving the state untouched.  Outside that range
the subtraction itself panics (see the counterexample). -/
theorem sweep_fail_silent (st : EntityActor) (now : Int)
    (hrep : -(2 ^ 63 : Int) ≤ now - (st.sleep_after : Int)) :
    sleep_instances_checked st now = some (sleep_instances st now) ∧
    List.Sublist ((sleep_instances st now).1.instances) st.instances ∧
    (sleep_instances st now).2.length + (sleep_instances st now).1.instances.length
        = st.instances.length ∧
    ((∀ p ∈ st.instances, now - (st.sleep_after : Int) ≤ p.2.last_used) →
        sleep_instances st now = (st, [])) := by
  refine ⟨?_, ?_, ?_, ?_⟩
  · simp only [sleep_instances_checked, if_neg (not_lt.mpr hrep)]
  · simp only [sleep_instances]
    exact List.filter_sublist _
  · simpa only [sleep_instances, List.length_map] using
      length_filter_split st.instances
        fun p => decide (p.2.last_used < now - (st.sleep_after : Int))
  · intro hall
    simp only [sleep_instances]
    have h1 : (st.instances.filter fun p =>
        decide (p.2.last_used < now - (st.sleep_after : Int))) = [] := by
      rw [List.filter_eq_nil_iff]
      intro p hp
      simpa using hall p hp
    have h2 : (st.instances.filter fun p =>
        !decide (p.2.last_used < now - (st.sleep_after : Int))) = st.instances := by
      apply List.filter_eq_self.mpr
      intro p hp
      simpa using hall p hp
    rw [h1, h2]
    simp

/-- Witness for C8 (amended): sweeping the one-entry registry `stHit`
at time 30 with window 60 (cutoff -30, comfortably representable) does
not panic, finds no entry older than the cutoff and leaves the state
untouched with no stop issued. -/
theorem sweep_fail_silent_witness :
    sleep_instances_checked stHit 30 = some (sleep_instances stHit 30) ∧
    sleep_instances stHit 30 = (stHit, []) :=
  ⟨(sweep_fail_silent stHit 30 (by decide)).1,
   (sweep_fail_silent stHit 30 (by decide)).2.2.2 (by decide)⟩

/-- Claim C5: the supervisor schedules exactly one one-shot
60-second tick at startup (`pre_start`), and handling a `Tick` first
performs the sweep and only then — after the sweep's stop effects —
schedules exactly one next tick; the 60-second period is a literal
constant, the same for every supervisor state and hence independent of
the configured `sleep_after` threshold. -/
theorem tick_drives_sweeps (Msg : Type) (st : EntityActor) (now : Int)
    (sender createRes : Option Nat) :
    pre_start Msg = [Effect.scheduleTick 60] ∧
    other_receive st now (ActorMsg.tick : ActorMsg Msg) sender createRes
        = some ((sleep_instances st now).1,
                ((sleep_instances st now).2.map Effect.stop) ++ [Effect.scheduleTick 60]) ∧
    List.countP (fun e => isTickSchedule e)
        (((sleep_instances st now).2.map (Effect.stop : Nat → Effect Msg))
          ++ [Effect.scheduleTick 60]) = 1 := by
  refine ⟨rfl, rfl, ?_⟩
  rw [List.countP_append, List.countP_map]
  have hz : List.countP ((fun e => isTickSchedule e) ∘ (Effect.stop : Nat → Effect Msg))
      (sleep_instances st now).2 = 0 := by
    apply List.countP_eq_zero.mpr
    intro a _
    simp [isTickSchedule]
  rw [hz]
  rfl

/-- A configuration source with no `cqrs.sleep_after_secs` key, used
by concrete witnesses. -/
def cNone : Config := { get_int := fun _ => none }

/-- A configuration source answering 30 for every key, used by
concrete witnesses. -/
def cSome : Config := { get_int := fun _ => some 30 }

/-- Claim C7: constructed without an explicit configuration
(`conf = none`), the supervisor reads the passivation window from the
configuration source at construction; a missing or invalid
`cqrs.sleep_after_secs` is fatal — `Entity::new` does not produce a
supervisor — while a present value starts the supervisor with that
window (wrapped `as u64`) and an empty registry.  The started
supervisor keeps only the numeric `sleep_after`, so no later operation
consults the configuration source again. -/
theorem config_missing_fatal (c : Config) (fact : String → String) (name : String) :
    (c.get_int "cqrs.sleep_after_secs" = none → Entity.new c fact name none = none) ∧
    (∀ n : Int, c.get_int "cqrs.sleep_after_secs" = some n →
        Entity.new c fact name none
          = some { name := name, props := fact, instances := [],
                   sleep_after := (n % (2 : Int) ^ 64).toNat }) := by
  constructor
  · intro h
    simp [Entity.new, EntityActorConfig.fromConfig, h]
  · intro n h
    simp [Entity.new, EntityActorConfig.fromConfig, h]

/-- Witness for C7: a source without the key aborts startup; a source
answering 30 starts a supervisor with a 30-second window. -/
theorem config_missing_fatal_witness :
    Entity.new cNone idFact "acc" none = none ∧
    Entity.new cSome idFact "acc" none
      = some { name := "acc", props := idFact, instances := [],
               sleep_after := ((30 : Int) % (2 : Int) ^ 64).toNat } :=
  ⟨(config_missing_fatal cNone idFact "acc").1 rfl,
   (config_missing_fatal cSome idFact "acc").2 30 rfl⟩

/-- Counterexample for C10: the claim says that with an explicit
configuration (`conf = some ..`) the configuration source is never
consulted and the startup-fatal missing-key condition cannot occur.
The source computes `conf.unwrap_or(EntityActorConfig::from(&sys.config()))`
and Rust's `unwrap_or` evaluates its argument eagerly, so
`From<&Config>` — and its `.unwrap()` — runs even when `conf` is
`some`: with a source lacking `cqrs.sleep_after_secs` and
`conf = some { sleep_after_secs := 5 }`, `Entity::new` still fails to
start. -/
theorem explicit_conf_counterexample :
    Entity.new cNone idFact "acc" (some { sleep_after_secs := 5 }) = none := rfl

/-- Claim C10 (amended): with an explicit configuration
(`conf = some cfg`) the supplied `sleep_after_secs` value is used and
the configuration source's value is discarded — but the source is
still read eagerly (`unwrap_or` evaluates its argument), so a missing
or invalid key remains startup-fatal even when `conf` is supplied.  -/
theorem explicit_conf_still_reads_source (c : Config) (fact : String → String)
    (name : String) (cfg : EntityActorConfig) :
    (c.get_int "cqrs.sleep_after_secs" = none →
        Entity.new c fact name (some cfg) = none) ∧
    (∀ n : Int, c.get_int "cqrs.sleep_after_secs" = some n →
        Entity.new c fact name (some cfg)
          = some { name := name, props := fact, instances := [],
                   sleep_after := cfg.sleep_after_secs }) := by
  constructor
  · intro h
    simp [Entity.new, EntityActorConfig.fromConfig, h]
  · intro n h
    simp [Entity.new, EntityActorConfig.fromConfig, h]

/-- Witness for C10 (amended): with the key present and
`conf = some { sleep_after_secs := 5 }`, the supervisor starts with
window 5, not the source's 30. -/
theorem explicit_conf_still_reads_source_witness :
    Entity.new cSome idFact "acc" (some { sleep_after_secs := 5 })
      = some { name := "acc", props := idFact, instances := [], sleep_after := 5 } :=
  (explicit_conf_still_reads_source cSome idFact "acc" { sleep_after_secs := 5 }).2 30 rfl

end RikerCqrs
